import Mathlib

/-!
Verification of the doc-test extraction and reporting pipeline of
`src/cli-tool/src/index.js`.

The script walks a TypeScript program, gathers `@example` / `@doctest`
comment-block tags attached to exported symbols, classifies each tag's lines
into code lines and import lines, and drives an external runner over the
resulting test units, printing a hierarchical console report.

JS strings are modelled as Lean `String`; possibly-`undefined` values as
`Option`; JS objects used as string-keyed maps (`file.symbol.exports`,
`linked.sourceFiles`) as association lists `List (String × Option _)` in
`Object.keys` iteration order, with `Option` on the values because entries can
hold `undefined` (the source guards them with `.filter(isDefined)`).
-/

/-- The whitespace characters removed by JavaScript `String.prototype.trim`
(ECMAScript WhiteSpace and LineTerminator code points). -/
def isJsWhitespace (c : Char) : Bool :=
  c == ' ' || c == '\t' || c == '\n' || c == '\r' || c == '\x0b' || c == '\x0c' ||
  c == '\u00a0' || c == '\u1680' ||
  c == '\u2000' || c == '\u2001' || c == '\u2002' || c == '\u2003' ||
  c == '\u2004' || c == '\u2005' || c == '\u2006' || c == '\u2007' ||
  c == '\u2008' || c == '\u2009' || c == '\u200a' ||
  c == '\u2028' || c == '\u2029' || c == '\u202f' || c == '\u205f' ||
  c == '\u3000' || c == '\ufeff'

/-- Accumulator pass behind `splitNl`: the JS `str.split('\n')` loop. `acc`
holds the characters of the current piece in reverse. -/
def splitNlAux : List Char → List Char → List String
  | [], acc => [String.mk acc.reverse]
  | c :: cs, acc =>
    if c == '\n' then String.mk acc.reverse :: splitNlAux cs []
    else splitNlAux cs (c :: acc)

/-- JavaScript `str.split('\n')` (line 59 of the source): splits on every
`'\n'`, producing empty pieces between adjacent separators and at the ends;
the empty string splits to `[""]`. -/
def splitNl (s : String) : List String :=
  splitNlAux s.toList []

/-- Drop leading JS whitespace from a character list. -/
def ltrimWs (l : List Char) : List Char :=
  l.dropWhile isJsWhitespace

/-- Drop trailing JS whitespace from a character list. -/
def dropTrailingWs : List Char → List Char
  | [] => []
  | c :: cs =>
    match dropTrailingWs cs with
    | [] => if isJsWhitespace c then [] else [c]
    | r => c :: r

/-- JavaScript `s.trim()` on the character list of `s`: removes leading and
trailing whitespace. -/
def jsTrimChars (l : List Char) : List Char :=
  dropTrailingWs (ltrimWs l)

/-- Predicate `strStartsWith pat s`: holds when `s` begins with `pat`; this is JavaScript
`s.indexOf(pat) === 0`, the literal prefix test used at line 62. -/
def strStartsWith : List Char → List Char → Bool
  | [], _ => true
  | _ :: _, [] => false
  | p :: ps, c :: cs => p == c && strStartsWith ps cs

/-- The line classifier of line 62: `s.trim().indexOf('import') === 0`. -/
def isImportLine (s : String) : Bool :=
  strStartsWith "import".toList (jsTrimChars s.toList)

/-- The guard of line 61: `typeof s === 'string' && s !== '\n'`. Every element
produced by `split` is a string, so only the inequality is live. -/
def keepLine (s : String) : Bool :=
  !(s == "\n")

/-- Definition `isDefined` from lines 39-41 of the source: a value is defined when it is
not `undefined`. -/
def isDefined {α : Type} (o : Option α) : Bool :=
  o.isSome

/-- Models `.filter(isDefined)` applied to an array of possibly-undefined values:
keeps exactly the defined values, in order. -/
def filterDefined {α : Type} (l : List (Option α)) : List α :=
  l.filterMap id

/-- A comment-block tag (`comments.CommentBlockTag`): a tag name and the tag's
raw content, an ordered sequence of text fragments that may be absent. -/
structure CommentBlockTag where
  tagName : String
  content : Option (List String)
  deriving DecidableEq

/-- The `DocTest` record built by `gatherDocTest` (lines 15-19): the code
lines and import lines of one tag. -/
structure DocTest where
  codeArray : List String
  importsArray : List String
  deriving DecidableEq

/-- The `DocTestSymbol` record (lines 21-25): a symbol name and its tests. -/
structure DocTestSymbol where
  name : String
  tests : List DocTest
  deriving DecidableEq

/-- The `DocTestFile` record (lines 27-31): a module name and its symbols. -/
structure DocTestFile where
  name : String
  symbols : List DocTestSymbol
  deriving DecidableEq

/-- The slice of a linked formatted symbol's documentation that the script
reads: the optional `customTags` array. -/
structure SymbolDocumentation where
  customTags : Option (List CommentBlockTag)
  deriving DecidableEq

/-- The slice of `linker.LinkedFormattedSymbol` that the script reads: the
symbol's `name` and optional `documentation`. -/
structure LinkedFormattedSymbol where
  name : String
  documentation : Option SymbolDocumentation
  deriving DecidableEq

/-- The slice of a file's `symbol` that `gatherFileDocTests` reads: the
optional `exports` table, an ordered name-to-symbol map whose entries may hold
`undefined`. -/
structure FileSymbol where
  exports : Option (List (String × Option LinkedFormattedSymbol))
  deriving DecidableEq

/-- The slice of `linker.LinkedFormattedSourceFile` that the script reads:
`moduleName` and the optional file `symbol`. -/
structure LinkedFormattedSourceFile where
  moduleName : String
  symbol : Option FileSymbol
  deriving DecidableEq

/-- The slice of `linker.LinkedFormattedOutputData` that the script reads: the
`sourceFiles` map, whose entries may hold `undefined`. -/
structure LinkedFormattedOutputData where
  sourceFiles : List (String × Option LinkedFormattedSourceFile)
  deriving DecidableEq

/-- The `forEach` loop of lines 60-68: walk the split lines in order, and for
each line passing the guard of line 61, push it onto the import array when
`isImportLine` holds (line 62-63), else onto the code array (line 65). Returns
`(codeArray, importsArray)`. -/
def classifyLines : List String → List String × List String
  | [] => ([], [])
  | s :: rest =>
    let r := classifyLines rest
    if keepLine s then
      if isImportLine s then (r.1, s :: r.2) else (s :: r.1, r.2)
    else r

/-- Function `gatherDocTest` (lines 48-74): `undefined` when the tag's content is
absent (`!content` — note a present-but-empty fragment array is truthy in JS
and passes the guard); otherwise join the fragments, split on `'\n'`, and
classify each line. -/
def gatherDocTest (tag : CommentBlockTag) : Option DocTest :=
  match tag.content with
  | none => none
  | some content =>
    let parts := classifyLines (splitNl (String.join content))
    some { codeArray := parts.1, importsArray := parts.2 }

/-- The tag filter of lines 91-93: `['example', 'doctest'].indexOf(ct.tagName) >= 0`. -/
def isQualifyingTag (ct : CommentBlockTag) : Bool :=
  ct.tagName == "example" || ct.tagName == "doctest"

/-- Function `gatherSymbolDocTests` (lines 81-99): `undefined` when documentation or
its custom-tag list is absent or no tag qualifies; otherwise the symbol's name
with the defined results of `gatherDocTest` over the qualifying tags. -/
def gatherSymbolDocTests (sym : LinkedFormattedSymbol) : Option DocTestSymbol :=
  match sym.documentation with
  | none => none
  | some documentation =>
    match documentation.customTags with
    | none => none
    | some customTags =>
      let examples := customTags.filter isQualifyingTag
      if examples.length = 0 then none
      else some { name := sym.name, tests := filterDefined (examples.map gatherDocTest) }

/-- Function `gatherFileDocTests` (lines 106-119): `undefined` when the file has no
symbol or its symbol's `exports` is `undefined` (lines 107-110); otherwise a
`DocTestFile` named by `file.moduleName` whose symbols are the defined results
of `gatherSymbolDocTests` over the defined export-table values. -/
def gatherFileDocTests (file : LinkedFormattedSourceFile) : Option DocTestFile :=
  match file.symbol with
  | none => none
  | some fileSym =>
    match fileSym.exports with
    | none => none
    | some fileExports =>
      let exportSyms := filterDefined (fileExports.map (fun kv => kv.2))
      some { name := file.moduleName
             symbols := filterDefined (exportSyms.map gatherSymbolDocTests) }

/-- Function `gatherProgramDocTests` (lines 126-132): the defined results of
`gatherFileDocTests` over the defined values of `linked.sourceFiles`. -/
def gatherProgramDocTests (linked : LinkedFormattedOutputData) : List DocTestFile :=
  filterDefined
    ((filterDefined (linked.sourceFiles.map (fun kv => kv.2))).map gatherFileDocTests)

/-- Deterministic model of one settled `runTest` promise: it either fulfills
(`ok`) or rejects with an error message (`raised`). -/
inductive RunOutcome where
  | ok : RunOutcome
  | raised : String → RunOutcome
  deriving DecidableEq

/-- One line of the console report printed by `doctestProgram`; `renderLine`
gives the exact console text. -/
inductive ReportLine where
  | fileNoTests : String → ReportLine
  | fileHeader : String → ReportLine
  | symbolNoTests : String → ReportLine
  | symbolSuccess : String → ReportLine
  | symbolFailure : String → String → ReportLine
  deriving DecidableEq

/-- The console text of each report line (lines 162, 165, 171, 188, 189 of the
source; the failure line renders the caught error via `${err}`, carrying the
raised message). -/
def renderLine : ReportLine → String
  | ReportLine.fileNoTests n => "  📦  " ++ n ++ " - no exported symbols w/ doctests"
  | ReportLine.fileHeader n => "  📦  " ++ n
  | ReportLine.symbolNoTests n => "    " ++ n ++ " - no doctests"
  | ReportLine.symbolSuccess n => "    ✅ " ++ n
  | ReportLine.symbolFailure n m => "    ❌ " ++ n ++ ": " ++ m

/-- The error `Promise.all` settles with for one symbol's test units: the
first rejection, `none` when every unit fulfills. `Promise.all` rejects with
the temporally first rejection; the model resolves settlement in list order. -/
def firstError (runner : DocTest → RunOutcome) : List DocTest → Option String
  | [] => none
  | t :: ts =>
    match runner t with
    | RunOutcome.raised msg => some msg
    | RunOutcome.ok => firstError runner ts

/-- The per-symbol reporting closure (lines 168-190): returns the runner
invocations made for the symbol paired with the lines printed for it. Every
test unit is invoked — `tests.map(async t => ...)` launches all units before
`Promise.all` settles, so a rejection cancels no sibling unit; the `.catch`
swallows the error, so nothing propagates past the symbol. The per-unit
"invoking runTest(...)" banner of line 178 is represented by the invocation
list itself. -/
def reportSymbol (runner : DocTest → RunOutcome) (s : DocTestSymbol) :
    List DocTest × List ReportLine :=
  if s.tests.length = 0 then ([], [ReportLine.symbolNoTests s.name])
  else
    match firstError runner s.tests with
    | none => (s.tests, [ReportLine.symbolSuccess s.name])
    | some msg => (s.tests, [ReportLine.symbolFailure s.name msg])

/-- The per-file reporting closure (lines 158-192): an informational line and
no invocations when the file has no symbols with doctests; otherwise the file
header followed by every symbol's report, symbols processed jointly via
`Promise.all`. -/
def reportFile (runner : DocTest → RunOutcome) (f : DocTestFile) :
    List DocTest × List ReportLine :=
  if f.symbols.length = 0 then ([], [ReportLine.fileNoTests f.name])
  else
    let results := f.symbols.map (reportSymbol runner)
    ((results.map Prod.fst).flatten,
      ReportLine.fileHeader f.name :: (results.map Prod.snd).flatten)

/-- The program-level `Promise.all` over files (lines 157-193). -/
def reportProgram (runner : DocTest → RunOutcome) (files : List DocTestFile) :
    List DocTest × List ReportLine :=
  let results := files.map (reportFile runner)
  ((results.map Prod.fst).flatten, (results.map Prod.snd).flatten)

/-- The package descriptor returned by `findPkgJson`; only its presence
decides control flow in `doctestProgram` — its fields merely feed the external
walker collaborators. -/
structure PkgJson where
  path : String
  deriving DecidableEq

/-- Function `doctestProgram` (lines 138-194), with the external collaborators at their
interface boundary: the program builder / walker / formatter / linker
composition is the `linked` input, the package locator is `findPkg`, and the
external `runTest` is `runner`. When the locator yields nothing the run aborts
with the `Error` of line 142 before any aggregation or reporting; otherwise it
aggregates and reports, yielding the runner invocations and console lines. -/
def doctestProgram (pth : String) (findPkg : String → Option PkgJson)
    (linked : LinkedFormattedOutputData) (runner : DocTest → RunOutcome) :
    Except String (List DocTest × List ReportLine) :=
  match findPkg pth with
  | none => Except.error ("Could not find package.json via search path \"" ++ pth ++ "\"")
  | some _ => Except.ok (reportProgram runner (gatherProgramDocTests linked))

/-- A runner used to exercise the failure path: it rejects exactly on the unit
whose code is `["boom()"]`. -/
def raisingRunner (t : DocTest) : RunOutcome :=
  if t.codeArray = ["boom()"] then RunOutcome.raised "boom" else RunOutcome.ok

/-! ## Helper lemmas -/

theorem mem_filterDefined {α : Type} (a : α) (l : List (Option α)) :
    a ∈ filterDefined l ↔ some a ∈ l := by
  simp [filterDefined, List.mem_filterMap]

theorem filterDefined_map {α β : Type} (f : α → Option β) (l : List α) :
    filterDefined (l.map f) = l.filterMap f := by
  simp [filterDefined, List.filterMap_map]

theorem filterDefined_snd_filter {α β : Type} (l : List (α × Option β)) :
    filterDefined ((l.filter (fun kv => isDefined kv.2)).map (fun kv => kv.2)) =
      filterDefined (l.map (fun kv => kv.2)) := by
  induction l with
  | nil => rfl
  | cons kv l ih =>
    obtain ⟨a, o⟩ := kv
    cases o with
    | none =>
      simpa [List.filter_cons, isDefined, filterDefined, List.filterMap_cons] using ih
    | some b =>
      simpa [List.filter_cons, isDefined, filterDefined, List.filterMap_cons] using ih

theorem splitNlAux_no_newline (l : List Char) :
    ∀ (acc : List Char), (∀ c ∈ acc, c ≠ '\n') →
      ∀ s ∈ splitNlAux l acc, ∀ c ∈ s.toList, c ≠ '\n' := by
  induction l with
  | nil =>
    intro acc hacc s hs c hc
    simp only [splitNlAux, List.mem_singleton] at hs
    subst hs
    exact hacc c (List.mem_reverse.mp hc)
  | cons ch cs ih =>
    intro acc hacc s hs c hc
    cases hb : (ch == '\n') with
    | true =>
      rw [splitNlAux, hb, if_pos rfl] at hs
      simp only [List.mem_cons] at hs
      rcases hs with hs | hs
      · subst hs
        exact hacc c (List.mem_reverse.mp hc)
      · exact ih [] (by simp) s hs c hc
    | false =>
      rw [splitNlAux, hb, if_neg Bool.false_ne_true] at hs
      refine ih (ch :: acc) ?_ s hs c hc
      intro x hx
      rcases List.mem_cons.mp hx with rfl | hx
      · exact fun he => by rw [he] at hb; simp at hb
      · exact hacc x hx

theorem keepLine_of_mem_splitNl (str s : String) (hs : s ∈ splitNl str) :
    keepLine s = true := by
  have h := splitNlAux_no_newline str.toList [] (by simp) s hs
  by_cases he : s = "\n"
  · exact absurd rfl (by subst he; exact h '\n' (by decide))
  · simp [keepLine, he]

theorem classifyLines_eq_filter (l : List String) :
    classifyLines l =
      (l.filter (fun s => keepLine s && !(isImportLine s)),
       l.filter (fun s => keepLine s && isImportLine s)) := by
  induction l with
  | nil => rfl
  | cons s rest ih =>
    cases hk : keepLine s <;> cases hi : isImportLine s <;>
      simp [classifyLines, ih, List.filter_cons, hk, hi]

theorem gatherDocTest_some (tagName : String) (content : List String) :
    gatherDocTest { tagName := tagName, content := some content } =
      some { codeArray := (splitNl (String.join content)).filter
               (fun s => keepLine s && !(isImportLine s)),
             importsArray := (splitNl (String.join content)).filter
               (fun s => keepLine s && isImportLine s) } := by
  simp [gatherDocTest, classifyLines_eq_filter]

theorem dropTrailingWs_eq_nil :
    ∀ (l : List Char), dropTrailingWs l = [] → ∀ c ∈ l, isJsWhitespace c = true := by
  intro l
  induction l with
  | nil => intro _ c hc; cases hc
  | cons c cs ih =>
    intro h x hx
    cases hd : dropTrailingWs cs with
    | nil =>
      rw [dropTrailingWs, hd] at h
      cases hc : isJsWhitespace c with
      | true =>
        rcases List.mem_cons.mp hx with rfl | hxs
        · exact hc
        · exact ih hd x hxs
      | false =>
        rw [hc] at h
        simp at h
    | cons r rs =>
      rw [dropTrailingWs, hd] at h
      simp at h

theorem strStartsWith_allWs (q : Char) (qs : List Char) (cs : List Char)
    (hq : isJsWhitespace q = false) (hcs : ∀ x ∈ cs, isJsWhitespace x = true) :
    strStartsWith (q :: qs) cs = false := by
  cases cs with
  | nil => rfl
  | cons d ds =>
    have hd : isJsWhitespace d = true := hcs d (List.mem_cons_self d ds)
    have hne : (q == d) = false := by
      refine beq_eq_false_iff_ne.mpr ?_
      intro he
      rw [he, hd] at hq
      cases hq
    simp [strStartsWith, hne]

theorem strStartsWith_dropTrailingWs :
    ∀ (u pat : List Char), (∀ c ∈ pat, isJsWhitespace c = false) →
      strStartsWith pat (dropTrailingWs u) = strStartsWith pat u := by
  intro u
  induction u with
  | nil => intro pat _; rfl
  | cons c cs ih =>
    intro pat hpat
    cases pat with
    | nil => rfl
    | cons p ps =>
      have hp : isJsWhitespace p = false := hpat p (List.mem_cons_self p ps)
      cases hd : dropTrailingWs cs with
      | nil =>
        have hcs := dropTrailingWs_eq_nil cs hd
        cases hc : isJsWhitespace c with
        | true =>
          have h1 : dropTrailingWs (c :: cs) = [] := by
            rw [dropTrailingWs, hd, hc]
            simp
          rw [h1]
          have hne : (p == c) = false := by
            refine beq_eq_false_iff_ne.mpr ?_
            intro he
            rw [he, hc] at hp
            cases hp
          simp [strStartsWith, hne]
        | false =>
          have h1 : dropTrailingWs (c :: cs) = [c] := by
            rw [dropTrailingWs, hd, hc]
            simp
          rw [h1]
          simp only [strStartsWith]
          cases ps with
          | nil => simp [strStartsWith]
          | cons q qs =>
            have hq : isJsWhitespace q = false := hpat q (by simp)
            rw [strStartsWith_allWs q qs cs hq hcs]
            simp [strStartsWith]
      | cons r rs =>
        have h1 : dropTrailingWs (c :: cs) = c :: r :: rs := by
          rw [dropTrailingWs, hd]
        rw [h1]
        simp only [strStartsWith]
        have hps : ∀ x ∈ ps, isJsWhitespace x = false := by
          intro x hx
          exact hpat x (by simp [hx])
        rw [← hd, ih ps hps]

theorem isImportLine_eq_ltrim (s : String) :
    isImportLine s = strStartsWith "import".toList (ltrimWs s.toList) := by
  unfold isImportLine jsTrimChars
  exact strStartsWith_dropTrailingWs (ltrimWs s.toList) "import".toList (by decide)

theorem firstError_eq_none_iff (runner : DocTest → RunOutcome) :
    ∀ ts : List DocTest,
      (firstError runner ts = none ↔ ∀ t ∈ ts, runner t = RunOutcome.ok) := by
  intro ts
  induction ts with
  | nil => simp [firstError]
  | cons t ts ih =>
    cases hr : runner t with
    | ok => simp [firstError, hr, ih]
    | raised m =>
      simp only [firstError, hr]
      constructor
      · intro h
        cases h
      · intro h
        have := h t (List.mem_cons_self t ts)
        rw [hr] at this
        cases this

theorem firstError_some_mem (runner : DocTest → RunOutcome) :
    ∀ (ts : List DocTest) (m : String), firstError runner ts = some m →
      ∃ t ∈ ts, runner t = RunOutcome.raised m := by
  intro ts
  induction ts with
  | nil => intro m h; cases h
  | cons t ts ih =>
    intro m h
    cases hr : runner t with
    | ok =>
      rw [firstError, hr] at h
      obtain ⟨u, hu, hru⟩ := ih m h
      exact ⟨u, List.mem_cons_of_mem t hu, hru⟩
    | raised n =>
      rw [firstError, hr] at h
      obtain rfl : n = m := Option.some.inj h
      exact ⟨t, List.mem_cons_self t ts, hr⟩

/-! ## Claim theorems -/

/-- C1 (amended): the claim says the file aggregator always produces a
`FileTests`, treating a missing file symbol or missing export table as an
empty export set. The code returns nothing in exactly those cases (lines
107-110): `gatherFileDocTests file` is `none` precisely when the file has no
symbol or its symbol has no export table, and any `FileTests` it does produce
is named by the file's module identifier. -/
theorem gatherFileDocTests_none_iff (file : LinkedFormattedSourceFile) :
    (gatherFileDocTests file = none ↔
      file.symbol = none ∨ ∃ fs, file.symbol = some fs ∧ fs.exports = none) ∧
    ∀ df, gatherFileDocTests file = some df → df.name = file.moduleName := by
  obtain ⟨mn, sym⟩ := file
  cases sym with
  | none => simp [gatherFileDocTests]
  | some fs =>
    cases hex : fs.exports with
    | none =>
      constructor
      · simp [gatherFileDocTests, hex]
      · intro df h
        rw [gatherFileDocTests] at h
        simp only [hex] at h
        cases h
    | some exps =>
      constructor
      · simp [gatherFileDocTests, hex]
      · intro df h
        rw [gatherFileDocTests] at h
        simp only [hex] at h
        obtain rfl := Option.some.inj h
        rfl

/-- Witness for C1's amended theorem: a file whose symbol has no export table
is dropped (`none`), not materialized with an empty symbol sequence. -/
theorem gatherFileDocTests_none_iff_witness :
    gatherFileDocTests { moduleName := "n", symbol := some { exports := none } } = none :=
  (gatherFileDocTests_none_iff
      { moduleName := "n", symbol := some { exports := none } }).1.mpr
    (Or.inr ⟨{ exports := none }, rfl, rfl⟩)

/-- Counterexample to C1 as stated: at a file with no symbol, the file
aggregator produces nothing rather than a `FileTests` with an empty
symbol-tests sequence. -/
theorem gatherFileDocTests_missing_symbol_cex :
    gatherFileDocTests { moduleName := "m", symbol := none } = none := rfl

/-- C2 (amended): when the qualifying-tag list is non-empty but every
qualifying tag yields no `TestUnit`, `gatherSymbolDocTests` does not return
nothing — it materializes a `SymbolTests` whose test-unit sequence is empty
(the reporter then prints its per-symbol no-doctests line). It returns nothing
only when documentation, the custom-tag list, or any qualifying tag is
absent. -/
theorem gatherSymbolDocTests_empty_tests_materialized (name : String)
    (tags : List CommentBlockTag)
    (h1 : tags.filter isQualifyingTag ≠ [])
    (h2 : ∀ t ∈ tags.filter isQualifyingTag, gatherDocTest t = none) :
    gatherSymbolDocTests
        { name := name, documentation := some { customTags := some tags } } =
      some { name := name, tests := [] } := by
  have hlen : ¬ (tags.filter isQualifyingTag).length = 0 :=
    fun h => h1 (List.length_eq_zero.mp h)
  have htests : filterDefined ((tags.filter isQualifyingTag).map gatherDocTest) = [] := by
    rw [filterDefined_map]
    exact List.filterMap_eq_nil_iff.mpr h2
  simp only [gatherSymbolDocTests]
  rw [if_neg hlen, htests]

/-- Witness for C2's amended theorem: one qualifying `@doctest` tag with
absent content produces a materialized `SymbolTests` with an empty test-unit
sequence. -/
theorem gatherSymbolDocTests_empty_tests_witness :
    gatherSymbolDocTests
        { name := "g",
          documentation :=
            some { customTags := some [{ tagName := "doctest", content := none }] } } =
      some { name := "g", tests := [] } :=
  gatherSymbolDocTests_empty_tests_materialized "g"
    [{ tagName := "doctest", content := none }] (by decide) (by decide)

/-- Counterexample to C2 as stated: a symbol whose only custom tag is an
`@example` tag with absent content yields a `SymbolTests` with an empty
test-unit sequence, not nothing. -/
theorem gatherSymbolDocTests_contentless_cex :
    gatherSymbolDocTests
        { name := "f",
          documentation :=
            some { customTags := some [{ tagName := "example", content := none }] } } =
      some { name := "f", tests := [] } := by decide

/-- C3 (amended): after the split on line boundaries, no resulting line can
consist solely of a line terminator (splitting on `'\n'` never yields one), so
neither sequence contains such a line; but empty resulting lines are not
discarded — the guard of line 61 only excludes the string `"\n"`, so every
split line lands in exactly one sequence and every empty line is appended to
the code-line sequence. -/
theorem gatherDocTest_blank_line_handling (tagName : String) (content : List String)
    (dt : DocTest)
    (h : gatherDocTest { tagName := tagName, content := some content } = some dt) :
    ("\n" ∉ dt.codeArray ∧ "\n" ∉ dt.importsArray) ∧
    (∀ s ∈ splitNl (String.join content), s ∈ dt.codeArray ∨ s ∈ dt.importsArray) ∧
    ("" ∈ splitNl (String.join content) → "" ∈ dt.codeArray) := by
  rw [gatherDocTest_some] at h
  obtain rfl := Option.some.inj h
  refine ⟨⟨?_, ?_⟩, ?_, ?_⟩
  · intro hm
    have := (List.mem_filter.mp hm).2
    simp [keepLine] at this
  · intro hm
    have := (List.mem_filter.mp hm).2
    simp [keepLine] at this
  · intro s hs
    have hk := keepLine_of_mem_splitNl (String.join content) s hs
    cases hi : isImportLine s with
    | false => exact Or.inl (List.mem_filter.mpr ⟨hs, by simp [hk, hi]⟩)
    | true => exact Or.inr (List.mem_filter.mpr ⟨hs, by simp [hk, hi]⟩)
  · intro h0
    exact List.mem_filter.mpr ⟨h0, by decide⟩

/-- Witness for C3's amended theorem: from content `"x\n\ny"` the empty middle
line is retained in the code-line sequence. -/
theorem gatherDocTest_blank_line_witness :
    ("" : String) ∈ DocTest.codeArray { codeArray := ["x", "", "y"], importsArray := [] } :=
  (gatherDocTest_blank_line_handling "example" ["x\n\ny"]
      { codeArray := ["x", "", "y"], importsArray := [] } (by decide)).2.2 (by decide)

/-- Counterexample to C3 as stated: for content `"a\n\nb"` the split yields
the empty middle line, and that empty line appears in the code-line sequence
rather than in neither sequence. -/
theorem gatherDocTest_empty_line_cex :
    gatherDocTest { tagName := "example", content := some ["a\n\nb"] } =
      some { codeArray := ["a", "", "b"], importsArray := [] } ∧
    ("" : String) ∈ DocTest.codeArray { codeArray := ["a", "", "b"], importsArray := [] } :=
  ⟨rfl, by decide⟩

/-- C4: a line of the tag's content is appended (untrimmed) to the import
sequence exactly when the line with its leading whitespace removed begins with
the literal prefix `"import"` — `trim` also removes trailing whitespace, but
that cannot affect a prefix test on a whitespace-free pattern — and otherwise
it is appended to the code sequence. The prefix match is literal, so a line
like `importantValue = 1` counts as an import line (see the witness). -/
theorem gatherDocTest_import_classification (tagName : String) (content : List String)
    (dt : DocTest)
    (h : gatherDocTest { tagName := tagName, content := some content } = some dt)
    (s : String) (hs : s ∈ splitNl (String.join content)) :
    (s ∈ dt.importsArray ↔ strStartsWith "import".toList (ltrimWs s.toList) = true) ∧
    (s ∈ dt.codeArray ↔ strStartsWith "import".toList (ltrimWs s.toList) = false) := by
  rw [gatherDocTest_some] at h
  obtain rfl := Option.some.inj h
  have hk := keepLine_of_mem_splitNl (String.join content) s hs
  rw [← isImportLine_eq_ltrim]
  constructor
  · simp [List.mem_filter, hs, hk]
  · simp [List.mem_filter, hs, hk]

/-- Witness for C4: the line `"  importantValue = 1"` trims to a string with
literal prefix `"import"`, so it is classified (untrimmed) as an import line
and the code sequence stays empty. -/
theorem gatherDocTest_import_classification_witness :
    gatherDocTest { tagName := "example", content := some ["  importantValue = 1"] } =
      some { codeArray := [], importsArray := ["  importantValue = 1"] } ∧
    ("  importantValue = 1" : String) ∈
      DocTest.importsArray { codeArray := [], importsArray := ["  importantValue = 1"] } := by
  refine ⟨by decide, ?_⟩
  exact (gatherDocTest_import_classification "example" ["  importantValue = 1"]
      { codeArray := [], importsArray := ["  importantValue = 1"] } (by decide)
      "  importantValue = 1" (by decide)).1.mpr (by decide)

/-- C5: the code-line and import-line sequences are value-disjoint, and each
is the order-preserving restriction of the split line sequence to its class:
interleaving the two sequences back by original position therefore reproduces
the kept line sequence — which is the entire split sequence, since the guard
keeps every split line — so the relative source order of all non-blank lines
is preserved. -/
theorem gatherDocTest_disjoint_partition (tagName : String) (content : List String)
    (dt : DocTest)
    (h : gatherDocTest { tagName := tagName, content := some content } = some dt) :
    (∀ s, s ∈ dt.codeArray → s ∉ dt.importsArray) ∧
    dt.codeArray =
      (splitNl (String.join content)).filter (fun s => keepLine s && !(isImportLine s)) ∧
    dt.importsArray =
      (splitNl (String.join content)).filter (fun s => keepLine s && isImportLine s) ∧
    (splitNl (String.join content)).filter keepLine = splitNl (String.join content) := by
  rw [gatherDocTest_some] at h
  obtain rfl := Option.some.inj h
  refine ⟨?_, rfl, rfl, ?_⟩
  · intro s hc hi
    have h1 := (List.mem_filter.mp hc).2
    have h2 := (List.mem_filter.mp hi).2
    simp only [Bool.and_eq_true, Bool.not_eq_true'] at h1 h2
    rw [h1.2] at h2
    cases h2.2
  · exact List.filter_eq_self.mpr (fun s hs => keepLine_of_mem_splitNl _ s hs)

/-- Witness for C5: with content `"x = 1\nimport y"`, the code line `"x = 1"`
does not also occur in the import sequence. -/
theorem gatherDocTest_disjoint_partition_witness :
    ("x = 1" : String) ∉
      DocTest.importsArray { codeArray := ["x = 1"], importsArray := ["import y"] } :=
  (gatherDocTest_disjoint_partition "example" ["x = 1\nimport y"]
      { codeArray := ["x = 1"], importsArray := ["import y"] } (by decide)).1
    "x = 1" (by decide)

/-- C6: for a symbol with a non-empty test-unit sequence, the runner is
invoked once per test unit, in order, and a raising unit cancels no sibling —
the invocation list is always the whole test list. The success line is printed
exactly when no invocation raises; when one raises, the single printed line is
the failure line naming the symbol and carrying a raised error's message
(rendered as the console text of line 189). The error is swallowed there: at
the file level every sibling symbol's units are still invoked, and
`reportFile` returns normally. -/
theorem reportSymbol_failure_semantics (runner : DocTest → RunOutcome)
    (s : DocTestSymbol) (h : s.tests ≠ []) :
    (reportSymbol runner s).1 = s.tests ∧
    ((reportSymbol runner s).2 = [ReportLine.symbolSuccess s.name] ↔
      ∀ t ∈ s.tests, runner t = RunOutcome.ok) ∧
    (∀ m, firstError runner s.tests = some m →
      (∃ t ∈ s.tests, runner t = RunOutcome.raised m) ∧
      (reportSymbol runner s).2 = [ReportLine.symbolFailure s.name m] ∧
      renderLine (ReportLine.symbolFailure s.name m) = "    ❌ " ++ s.name ++ ": " ++ m) ∧
    (∀ f : DocTestFile, f.symbols ≠ [] →
      (reportFile runner f).1 =
        (f.symbols.map (fun s2 => (reportSymbol runner s2).1)).flatten) := by
  have hlen : ¬ s.tests.length = 0 := fun h0 => h (List.length_eq_zero.mp h0)
  have hfile : ∀ f : DocTestFile, f.symbols ≠ [] →
      (reportFile runner f).1 =
        (f.symbols.map (fun s2 => (reportSymbol runner s2).1)).flatten := by
    intro f hf
    have hflen : ¬ f.symbols.length = 0 := fun h0 => hf (List.length_eq_zero.mp h0)
    rw [reportFile, if_neg hflen]
    simp [List.map_map, Function.comp_def]
  cases hfe : firstError runner s.tests with
  | none =>
    rw [reportSymbol, if_neg hlen, hfe]
    refine ⟨rfl, ?_, ?_, hfile⟩
    · exact iff_of_true rfl ((firstError_eq_none_iff runner s.tests).mp hfe)
    · intro m hm
      cases hm
  | some m0 =>
    rw [reportSymbol, if_neg hlen, hfe]
    refine ⟨rfl, ?_, ?_, hfile⟩
    · constructor
      · intro hL
        cases List.cons.inj hL |>.1
      · intro hR
        rw [(firstError_eq_none_iff runner s.tests).mpr hR] at hfe
        cases hfe
    · intro m hm
      obtain rfl := Option.some.inj hm
      exact ⟨firstError_some_mem runner s.tests _ hfe, rfl, rfl⟩

/-- Witness for C6: a symbol with a fulfilling unit T1 and a raising unit T2 —
both units are invoked (T1 is not cancelled) and the symbol's printed line is
the failure line carrying T2's message. -/
theorem reportSymbol_failure_semantics_witness :
    (reportSymbol raisingRunner { name := "add", tests :=
        [{ codeArray := ["ok()"], importsArray := [] },
         { codeArray := ["boom()"], importsArray := [] }] }).1 =
      [{ codeArray := ["ok()"], importsArray := [] },
       { codeArray := ["boom()"], importsArray := [] }] ∧
    (reportSymbol raisingRunner { name := "add", tests :=
        [{ codeArray := ["ok()"], importsArray := [] },
         { codeArray := ["boom()"], importsArray := [] }] }).2 =
      [ReportLine.symbolFailure "add" "boom"] := by
  obtain ⟨h1, _, h3, _⟩ := reportSymbol_failure_semantics raisingRunner
    { name := "add", tests :=
        [{ codeArray := ["ok()"], importsArray := [] },
         { codeArray := ["boom()"], importsArray := [] }] } (by decide)
  exact ⟨h1, (h3 "boom" (by decide)).2.1⟩

/-- C7 (amended): a tag with absent content silently yields no `TestUnit` —
the only filtering path, never an error. A tag with present but empty content
is not dropped, however: the empty fragment array passes the `!content` guard
(arrays are truthy), and joining and splitting it yields one empty line, so
the extractor yields a `TestUnit` with that empty line in its code sequence
and an empty import sequence. -/
theorem gatherDocTest_absent_vs_empty_content (tagName : String) :
    gatherDocTest { tagName := tagName, content := none } = none ∧
    gatherDocTest { tagName := tagName, content := some [] } =
      some { codeArray := [""], importsArray := [] } :=
  ⟨rfl, rfl⟩

/-- Counterexample to C7 as stated: a tag whose content is present but empty
yields a `TestUnit` (with one empty code line), not nothing. -/
theorem gatherDocTest_empty_content_cex :
    gatherDocTest { tagName := "example", content := some [] } =
      some { codeArray := [""], importsArray := [] } := rfl

/-- C8: a file whose symbol carries an export table, all of whose exported
symbols yield no `SymbolTests`, still yields a `FileTests` with an empty
symbol-tests sequence, and the program aggregator keeps that `FileTests` in
the program's file sequence. -/
theorem emptyFileTests_included_in_program (file : LinkedFormattedSourceFile)
    (fs : FileSymbol) (exps : List (String × Option LinkedFormattedSymbol))
    (h1 : file.symbol = some fs) (h2 : fs.exports = some exps)
    (h3 : ∀ sym : LinkedFormattedSymbol, some sym ∈ exps.map (fun kv => kv.2) →
      gatherSymbolDocTests sym = none) :
    gatherFileDocTests file = some { name := file.moduleName, symbols := [] } ∧
    ∀ (linked : LinkedFormattedOutputData) (k : String),
      (k, some file) ∈ linked.sourceFiles →
      { name := file.moduleName, symbols := [] } ∈ gatherProgramDocTests linked := by
  have hsyms :
      filterDefined
        ((filterDefined (exps.map (fun kv => kv.2))).map gatherSymbolDocTests) = [] := by
    rw [filterDefined_map]
    refine List.filterMap_eq_nil_iff.mpr ?_
    intro sym hsym
    exact h3 sym ((mem_filterDefined sym _).mp hsym)
  have hmain : gatherFileDocTests file = some { name := file.moduleName, symbols := [] } := by
    simp only [gatherFileDocTests, h1, h2, hsyms]
  refine ⟨hmain, ?_⟩
  intro linked k hk
  have hfile : file ∈ filterDefined (linked.sourceFiles.map (fun kv => kv.2)) := by
    rw [mem_filterDefined]
    exact List.mem_map.mpr ⟨(k, some file), hk, rfl⟩
  rw [gatherProgramDocTests, mem_filterDefined]
  exact List.mem_map.mpr ⟨file, hfile, hmain⟩

/-- Witness for C8: a program holding one file `"f.ts"` whose module `"mod"`
exports one undocumented symbol; the file's empty `FileTests` appears in the
aggregated program sequence. -/
theorem emptyFileTests_included_witness :
    { name := "mod", symbols := ([] : List DocTestSymbol) } ∈
      gatherProgramDocTests
        { sourceFiles :=
            [("f.ts",
              some { moduleName := "mod",
                     symbol := some { exports := some [("a", some { name := "a", documentation := none })] } })] } := by
  refine (emptyFileTests_included_in_program
      { moduleName := "mod", symbol :=
          some { exports := some [("a", some { name := "a", documentation := none })] } }
      { exports := some [("a", some { name := "a", documentation := none })] }
      [("a", some { name := "a", documentation := none })]
      rfl rfl ?_).2 _ "f.ts" (by decide)
  intro sym hsym
  simp only [List.map_cons, List.map_nil, List.mem_singleton, Option.some.injEq] at hsym
  subst hsym
  rfl

/-- C9: when the package locator finds nothing for the target path,
`doctestProgram` aborts with the fatal error of line 142 — the run produces no
report value, so no aggregation output is consumed, no file line is printed
and the external runner is never invoked. -/
theorem doctestProgram_missing_pkg_aborts (pth : String)
    (findPkg : String → Option PkgJson) (linked : LinkedFormattedOutputData)
    (runner : DocTest → RunOutcome) (h : findPkg pth = none) :
    doctestProgram pth findPkg linked runner =
      Except.error ("Could not find package.json via search path \"" ++ pth ++ "\"") ∧
    ∀ out, doctestProgram pth findPkg linked runner ≠ Except.ok out := by
  have herr : doctestProgram pth findPkg linked runner =
      Except.error ("Could not find package.json via search path \"" ++ pth ++ "\"") := by
    rw [doctestProgram, h]
  refine ⟨herr, ?_⟩
  intro out hout
  rw [herr] at hout
  cases hout

/-- Witness for C9: a locator that finds no package descriptor makes the run
abort with the fatal error, whatever the program contents. -/
theorem doctestProgram_missing_pkg_witness :
    doctestProgram "/proj" (fun _ => none) { sourceFiles := [] } (fun _ => RunOutcome.ok) =
      Except.error ("Could not find package.json via search path \"" ++ "/proj" ++ "\"") :=
  (doctestProgram_missing_pkg_aborts "/proj" (fun _ => none) { sourceFiles := [] }
      (fun _ => RunOutcome.ok) rfl).1

/-- C10: entries whose value is `undefined` in the program's source-file map
or in a file's export table are skipped by the `isDefined` filters: the
aggregation result over a map equals the result over the map with its
undefined entries removed, and (the aggregators being total functions) the
pipeline completes without error. -/
theorem aggregation_skips_undefined_entries :
    (∀ linked : LinkedFormattedOutputData,
      gatherProgramDocTests linked =
        gatherProgramDocTests
          { sourceFiles := linked.sourceFiles.filter (fun kv => isDefined kv.2) }) ∧
    (∀ (mn : String) (exps : List (String × Option LinkedFormattedSymbol)),
      gatherFileDocTests { moduleName := mn, symbol := some { exports := some exps } } =
        gatherFileDocTests
          { moduleName := mn,
            symbol := some { exports := some (exps.filter (fun kv => isDefined kv.2)) } }) := by
  constructor
  · intro linked
    rw [gatherProgramDocTests, gatherProgramDocTests, filterDefined_snd_filter]
  · intro mn exps
    simp only [gatherFileDocTests]
    rw [filterDefined_snd_filter]
